import Mathlib

/-!
# Verification of the Material-In-Transit dashboard core (src/app.py)

A shallow embedding of the filter-and-projection engine of `src/app.py`:
the table data model, the load-time normalization (`clean_dataframe`),
the filter pipeline shared by `get_data` and `export_data`, the
vocabulary provider (`get_filters`), the export serializer
(`export_data`) and the status endpoint, together with theorems settling
the specification claims about them.

Cell values are one of: a string, an integer, or the missing-value
marker `blank` (pandas NA / NaN).  Floating-point cells only matter to
the code as "missing or not", so numbers are modelled as integers.
-/

/-- A cell value of the in-memory table: string, number, or missing
(pandas `NaN`/`None`). -/
inductive Value where
  | vstr (s : String)
  | vnum (n : Int)
  | blank
deriving DecidableEq

/-- Python `str(x)` / pandas `astype(str)` on a cell.  `blank` renders as
`"nan"` (the string pandas produces for a float `NaN`); after
`clean_dataframe` no `blank` remains, so this corner never matters for
loaded tables. -/
def Value.toStr : Value → String
  | .vstr s => s
  | .vnum n => toString n
  | .blank => "nan"

/-- Python `str.strip()`: drop whitespace characters from both ends
(computed on the character list, so it evaluates by reduction). -/
def pyStrip (s : String) : String :=
  ⟨((s.data.dropWhile Char.isWhitespace).reverse.dropWhile Char.isWhitespace).reverse⟩

/-- One row of the table, with the fixed column schema of the dataset
(src/app.py declares these columns; the loader reads them from the
spreadsheet). -/
structure Row where
  division : Value
  poNo : Value
  poDate : Value
  salesOrder : Value
  invoiceNo : Value
  invoiceDate : Value
  partDescription : Value
  quantity : Value
  invoiceAmount : Value
  transporterName : Value
  lrNo : Value
  lrDate : Value
  tatPoToInvoice : Value
  tatInvoiceToLr : Value
  ageBucket : Value
  ndp : Value
deriving DecidableEq

/-- The fixed column-name list, in schema order (the `df.columns` of the
loaded spreadsheet). -/
def columns : List String :=
  ["Division", "Po No", "Po Date", "Sales Order", "Invoice No", "Invoice Date",
   "Part Description", "Quantity", "Invoice Amount", "Transporter Name",
   "LR No.", "LR Date", "TAT_Po_To_Invoice", "TAT_Invoice_To_LR", "Age Bucket", "NDP"]

/-- A row's cells in schema (column) order, as written by `to_excel`. -/
def rowCells (r : Row) : List Value :=
  [r.division, r.poNo, r.poDate, r.salesOrder, r.invoiceNo, r.invoiceDate,
   r.partDescription, r.quantity, r.invoiceAmount, r.transporterName,
   r.lrNo, r.lrDate, r.tatPoToInvoice, r.tatInvoiceToLr, r.ageBucket, r.ndp]

/-- The query parameters of `get_data` / `export_data` (src/app.py line 78 /
line 123): each is an optional string, `None` when absent from the request. -/
structure Criteria where
  division : Option String
  age_bucket : Option String
  transporter : Option String
  po_no : Option String
  lr_details : Option String
deriving DecidableEq

/-! ## The po_no predicate: pandas `str.contains(pat, case=False, na=False)`

`Series.str.contains` treats the pattern as a regular expression
(`regex=True` by default) and searches it anywhere in the string with
`re.IGNORECASE`.  The embedding models the regex fragment actually
exercised here: literal characters and the `.` wildcard; a pattern
character other than `.` matches its own lower-cased form
case-insensitively.  All theorems about patterns quantify only over
patterns inside this fragment (no other metacharacter). -/

/-- One compiled pattern token: `none` is the `.` wildcard, `some c` a
literal (already lower-cased) character. -/
def patToks (p : List Char) : List (Option Char) :=
  p.map (fun c => if c = '.' then none else some c.toLower)

/-- Does one token match one (lower-cased) text character? -/
def tokMatch : Option Char → Char → Bool
  | none, _ => true
  | some c, d => c == d

/-- Match the token list against a prefix of the text. -/
def matchHere : List (Option Char) → List Char → Bool
  | [], _ => true
  | _ :: _, [] => false
  | t :: ts, c :: cs => tokMatch t c && matchHere ts cs

/-- `re.search`: match the token list at some position of the text. -/
def searchToks (ts : List (Option Char)) : List Char → Bool
  | [] => matchHere ts []
  | c :: cs => matchHere ts (c :: cs) || searchToks ts cs

/-- The code's po_no row test, `row["Po No"].astype(str).str.contains(pat,
case=False, na=False)` (src/app.py line 95): case-insensitive regex search
of `pat` in the string form of the cell. -/
def reSearchIC (pat s : String) : Bool :=
  searchToks (patToks pat.data) (s.data.map Char.toLower)

/-- Case-insensitive *literal substring* containment, written from the
spec's words ("`row[Po No]` (as string), case-folded, contains
`criteria.po_no` (case-folded), as a substring"), to be compared with the
code's `reSearchIC`.  `prefHere`/`hasSub` below are its search loops. -/
def prefHere : List Char → List Char → Bool
  | [], _ => true
  | _ :: _, [] => false
  | c :: p, d :: m => c == d && prefHere p m

/-- Literal substring search of `p` anywhere in `m`. -/
def hasSub (p : List Char) : List Char → Bool
  | [] => prefHere p []
  | d :: m => prefHere p (d :: m) || hasSub p m

/-- Spec-worded predicate: the case-folded pattern occurs in the
case-folded string as a literal substring. -/
def containsCI (pat s : String) : Bool :=
  hasSub (pat.data.map Char.toLower) (s.data.map Char.toLower)

/-- The regex metacharacters of Python `re`.  A pattern avoiding all of
them is matched purely literally. -/
def metaChars : List Char :=
  ['.', '*', '+', '?', '\\', '[', ']', '(', ')', '\x7b', '\x7d', '|', '^', '$']

/-- `noMeta s`: the string contains no regex metacharacter. -/
def noMeta (s : String) : Bool :=
  s.data.all (fun c => !(metaChars.contains c))

/-! ## The filter pipeline

`get_data` (src/app.py lines 77-117) and `export_data` (lines 122-183)
apply the *same* five sequential conditional filters to a copy of the
table; each stage below embeds one `if ...: filtered_df = filtered_df[...]`
block, taking the one criterion it inspects. -/

/-- src/app.py lines 85-86: division exact match, skipped when the
parameter is absent, empty, `"All"`, or whitespace-only. -/
def divisionStage (l : List Row) : Option String → List Row
  | none => l
  | some s =>
    if s ≠ "" ∧ s ≠ "All" ∧ pyStrip s ≠ "" then
      l.filter (fun r => r.division.toStr == s)
    else l

/-- src/app.py lines 88-89: age-bucket exact match. -/
def ageStage (l : List Row) : Option String → List Row
  | none => l
  | some s =>
    if s ≠ "" ∧ s ≠ "All" ∧ pyStrip s ≠ "" then
      l.filter (fun r => r.ageBucket.toStr == s)
    else l

/-- src/app.py lines 91-92: transporter exact match. -/
def transporterStage (l : List Row) : Option String → List Row
  | none => l
  | some s =>
    if s ≠ "" ∧ s ≠ "All" ∧ pyStrip s ≠ "" then
      l.filter (fun r => r.transporterName.toStr == s)
    else l

/-- src/app.py lines 94-95: case-insensitive substring/regex search of the
*stripped* po_no in the Po No column.  Note: unlike the other stages there
is no `!= "All"` test here. -/
def poStage (l : List Row) : Option String → List Row
  | none => l
  | some s =>
    if s ≠ "" ∧ pyStrip s ≠ "" then
      l.filter (fun r => reSearchIC (pyStrip s) r.poNo.toStr)
    else l

/-- src/app.py lines 97-103: LR-status filter; a value other than the two
recognized labels falls through and filters nothing. -/
def lrStage (l : List Row) : Option String → List Row
  | none => l
  | some s =>
    if s ≠ "" ∧ s ≠ "All" ∧ pyStrip s ≠ "" then
      if s = "LR Generated" then
        l.filter (fun r => pyStrip r.lrNo.toStr != "")
      else if s = "LR Not Generated" then
        l.filter (fun r => pyStrip r.lrNo.toStr == "")
      else l
    else l

/-- The shared filter block (src/app.py lines 83-103 = lines 128-148):
the five conditional filters applied in order to the table copy. -/
def applyFilters (df : List Row) (c : Criteria) : List Row :=
  lrStage
    (poStage
      (transporterStage
        (ageStage
          (divisionStage df c.division)
          c.age_bucket)
        c.transporter)
      c.po_no)
    c.lr_details

/-- The row list produced by `get_data` (src/app.py lines 77-117):
early-out on an empty table, otherwise the filter pipeline. -/
def get_data (df : List Row) (c : Criteria) : List Row :=
  if df.isEmpty then [] else applyFilters df c

/-! ## Row-level predicates (one per criterion, inactive = always true) -/

/-- Row predicate of the division criterion; `true` when inactive. -/
def divisionPred (o : Option String) (r : Row) : Bool :=
  match o with
  | none => true
  | some s =>
    if s ≠ "" ∧ s ≠ "All" ∧ pyStrip s ≠ "" then r.division.toStr == s else true

/-- Row predicate of the age-bucket criterion. -/
def agePred (o : Option String) (r : Row) : Bool :=
  match o with
  | none => true
  | some s =>
    if s ≠ "" ∧ s ≠ "All" ∧ pyStrip s ≠ "" then r.ageBucket.toStr == s else true

/-- Row predicate of the transporter criterion. -/
def transporterPred (o : Option String) (r : Row) : Bool :=
  match o with
  | none => true
  | some s =>
    if s ≠ "" ∧ s ≠ "All" ∧ pyStrip s ≠ "" then r.transporterName.toStr == s else true

/-- Row predicate of the po_no criterion. -/
def poNoPred (o : Option String) (r : Row) : Bool :=
  match o with
  | none => true
  | some s =>
    if s ≠ "" ∧ pyStrip s ≠ "" then reSearchIC (pyStrip s) r.poNo.toStr else true

/-- Row predicate of the LR-status criterion. -/
def lrPred (o : Option String) (r : Row) : Bool :=
  match o with
  | none => true
  | some s =>
    if s ≠ "" ∧ s ≠ "All" ∧ pyStrip s ≠ "" then
      if s = "LR Generated" then pyStrip r.lrNo.toStr != ""
      else if s = "LR Not Generated" then pyStrip r.lrNo.toStr == ""
      else true
    else true

/-- Conjunction of the five active predicates. -/
def matchesAll (c : Criteria) (r : Row) : Bool :=
  divisionPred c.division r && agePred c.age_bucket r &&
    transporterPred c.transporter r && poNoPred c.po_no r && lrPred c.lr_details r

/-! ## Load-time normalization (`clean_dataframe`, src/app.py lines 25-30)

Per cell: a missing value (float `NaN` mapped to `None` by the lambda,
then any NA caught by `fillna('')`) becomes the empty string; every other
value is untouched. -/

/-- Cell-level normalization: `blank` (NA/NaN) canonicalizes to `""`. -/
def cleanValue : Value → Value
  | .blank => .vstr ""
  | v => v

/-- Row-level normalization: `cleanValue` on every column. -/
def cleanRow (r : Row) : Row where
  division := cleanValue r.division
  poNo := cleanValue r.poNo
  poDate := cleanValue r.poDate
  salesOrder := cleanValue r.salesOrder
  invoiceNo := cleanValue r.invoiceNo
  invoiceDate := cleanValue r.invoiceDate
  partDescription := cleanValue r.partDescription
  quantity := cleanValue r.quantity
  invoiceAmount := cleanValue r.invoiceAmount
  transporterName := cleanValue r.transporterName
  lrNo := cleanValue r.lrNo
  lrDate := cleanValue r.lrDate
  tatPoToInvoice := cleanValue r.tatPoToInvoice
  tatInvoiceToLr := cleanValue r.tatInvoiceToLr
  ageBucket := cleanValue r.ageBucket
  ndp := cleanValue r.ndp

/-- `clean_dataframe` (src/app.py lines 25-30): normalize every cell of
every row. -/
def clean_dataframe (df : List Row) : List Row :=
  df.map cleanRow

/-! ## Vocabulary provider (`get_filters`, src/app.py lines 48-75) -/

/-- pandas `Series.unique()`: distinct values in first-occurrence order.
`seen` accumulates the values already emitted. -/
def uniqueFirstAux (seen : List Value) : List Value → List Value
  | [] => []
  | v :: vs =>
    if v ∈ seen then uniqueFirstAux seen vs
    else v :: uniqueFirstAux (v :: seen) vs

/-- Distinct values of a list, first occurrences first. -/
def uniqueFirst (l : List Value) : List Value :=
  uniqueFirstAux [] l

/-- `df[col].dropna()`: drop the missing cells of a column. -/
def dropna (l : List Value) : List Value :=
  l.filter (fun v => v != Value.blank)

/-- Python `sorted` on strings: ascending lexicographic order. -/
def sortStr (l : List String) : List String :=
  l.insertionSort (fun a b => a ≤ b)

/-- `[str(x) for x in col.dropna().unique().tolist() if str(x).strip()]`,
then `sorted(...)` — the divisions pipeline of src/app.py line 58. -/
def vocabList (col : List Value) : List String :=
  sortStr (((uniqueFirst (dropna col)).map Value.toStr).filter (fun s => pyStrip s ≠ ""))

/-- Same pipeline with the extra `str(x) != 'nan'` test of the
transporters comprehension (src/app.py line 60). -/
def vocabListNoNan (col : List Value) : List String :=
  sortStr (((uniqueFirst (dropna col)).map Value.toStr).filter
    (fun s => pyStrip s ≠ "" ∧ s ≠ "nan"))

/-- The fixed canonical age-bucket order (src/app.py line 62). -/
def age_bucket_order : List String :=
  ["<5 Days", "5-10 Days", "10-20 Days", "20-30 Days", "30-60 Days", ">60 Days"]

/-- The response of `get_filters`; `lr_details : Option _` models
presence/absence of the `"lr_details"` key in the returned JSON object
(the empty-table branch at src/app.py lines 51-56 omits it). -/
structure Vocab where
  divisions : List String
  age_buckets : List String
  transporters : List String
  lr_details : Option (List String)
deriving DecidableEq

/-- `get_filters` (src/app.py lines 48-75). -/
def get_filters (df : List Row) : Vocab :=
  if df.isEmpty then
    { divisions := [], age_buckets := [], transporters := [], lr_details := none }
  else
    let divisions := vocabList (df.map (fun r => r.division))
    let age_buckets_raw :=
      ((uniqueFirst (dropna (df.map (fun r => r.ageBucket)))).map Value.toStr).filter
        (fun s => pyStrip s ≠ "")
    let transporters := vocabListNoNan (df.map (fun r => r.transporterName))
    { divisions := divisions
      age_buckets := age_bucket_order.filter (fun ab => ab ∈ age_buckets_raw)
      transporters := if transporters.isEmpty then [""] else [""] ++ transporters
      lr_details := some ["LR Generated", "LR Not Generated"] }

/-! ## Export serializer (`export_data`, src/app.py lines 122-183)

The filter block is the shared pipeline; the per-column `fillna('')` +
`clean_float` normalization turns every missing cell into `""` (that is
`cleanValue` per cell); `to_excel(index=False)` writes one header row of
`df.columns` and one row of cells per remaining table row. -/

/-- The materialized spreadsheet: header row and data rows. -/
structure Spreadsheet where
  header : List String
  rows : List (List Value)
deriving DecidableEq

/-- `export_data` (src/app.py lines 122-183): HTTP 400 on an empty table,
otherwise the filtered, normalized rows under the schema header. -/
def export_data (df : List Row) (c : Criteria) : Except String Spreadsheet :=
  if df.isEmpty then .error "No data available to export"
  else .ok
    { header := columns
      rows := (applyFilters df c).map (fun r => rowCells (cleanRow r)) }

/-! ## The request boundary as a state machine

The process state is the loaded table (`global df`); each request handler
reads it, works on a copy (`df.copy()` at src/app.py lines 83 and 128,
`filtered_df.copy()` at line 150) and never assigns the global, so `step`
returns the state unchanged alongside the response. -/

/-- The process-wide state: the table loaded at startup. -/
structure ServerState where
  df : List Row
deriving DecidableEq

/-- One request to the core: the four logical operations. -/
inductive Op where
  | opGetData (c : Criteria)
  | opExport (c : Criteria)
  | opGetFilters
  | opStatus
deriving DecidableEq

/-- A response payload from one of the four handlers. -/
inductive Response where
  | dataResp (total_records : Nat) (data : List Row)
  | exportResp (r : Except String Spreadsheet)
  | vocabResp (v : Vocab)
  | statusResp (data_loaded : Bool) (total_records : Nat)

/-- Execute one request against the state.  `get_data`'s record loop
(src/app.py lines 107-112) maps NA cells of the response to `""`, which is
`cleanRow`; `status` (lines 185-191) reports emptiness and row count. -/
def step (s : ServerState) : Op → Response × ServerState
  | .opGetData c =>
    let rows := get_data s.df c
    (.dataResp rows.length (rows.map cleanRow), s)
  | .opExport c => (.exportResp (export_data s.df c), s)
  | .opGetFilters => (.vocabResp (get_filters s.df), s)
  | .opStatus =>
    (.statusResp (!s.df.isEmpty) (if s.df.isEmpty then 0 else s.df.length), s)

/-- Execute a sequence of requests, threading the state. -/
def run (s : ServerState) : List Op → ServerState
  | [] => s
  | o :: os => run (step s o).2 os

/-! ## Concrete rows and tables used in witnesses and counterexamples -/

/-- Build a row setting only the five filter-relevant columns; the other
columns are empty strings. -/
def mkRow (div po tr lr ab : Value) : Row :=
  ⟨div, po, .vstr "", .vstr "", .vstr "", .vstr "", .vstr "", .vstr "",
   .vstr "", tr, lr, .vstr "", .vstr "", .vstr "", ab, .vstr ""⟩

/-- A sample row: division `A`, Po No `PO-100`, transporter `T1`,
LR No. `123`, age bucket `<5 Days`. -/
def rowA : Row :=
  mkRow (.vstr "A") (.vstr "PO-100") (.vstr "T1") (.vstr "123") (.vstr "<5 Days")

/-- A sample row: division `B`, Po No `PX1`, transporter `T2`, blank
LR No., age bucket `<5 Days`. -/
def rowB : Row :=
  mkRow (.vstr "B") (.vstr "PX1") (.vstr "T2") (.vstr "") (.vstr "<5 Days")

/-- The criteria object with every parameter absent. -/
def noCrit : Criteria := ⟨none, none, none, none, none⟩

/-! ## Stage membership lemmas -/

theorem mem_divisionStage (l : List Row) (o : Option String) (r : Row) :
    r ∈ divisionStage l o ↔ r ∈ l ∧ divisionPred o r = true := by
  cases o with
  | none => simp [divisionStage, divisionPred]
  | some s =>
    simp only [divisionStage, divisionPred]
    split
    · rename_i h
      simp [List.mem_filter, h]
    · rename_i h
      simp [h]

theorem mem_ageStage (l : List Row) (o : Option String) (r : Row) :
    r ∈ ageStage l o ↔ r ∈ l ∧ agePred o r = true := by
  cases o with
  | none => simp [ageStage, agePred]
  | some s =>
    simp only [ageStage, agePred]
    split
    · rename_i h
      simp [List.mem_filter, h]
    · rename_i h
      simp [h]

theorem mem_transporterStage (l : List Row) (o : Option String) (r : Row) :
    r ∈ transporterStage l o ↔ r ∈ l ∧ transporterPred o r = true := by
  cases o with
  | none => simp [transporterStage, transporterPred]
  | some s =>
    simp only [transporterStage, transporterPred]
    split
    · rename_i h
      simp [List.mem_filter, h]
    · rename_i h
      simp [h]

theorem mem_poStage (l : List Row) (o : Option String) (r : Row) :
    r ∈ poStage l o ↔ r ∈ l ∧ poNoPred o r = true := by
  cases o with
  | none => simp [poStage, poNoPred]
  | some s =>
    simp only [poStage, poNoPred]
    split
    · rename_i h
      simp [List.mem_filter, h]
    · rename_i h
      simp [h]

theorem mem_lrStage (l : List Row) (o : Option String) (r : Row) :
    r ∈ lrStage l o ↔ r ∈ l ∧ lrPred o r = true := by
  cases o with
  | none => simp [lrStage, lrPred]
  | some s =>
    simp only [lrStage, lrPred]
    split
    · rename_i h
      split
      · rename_i hg
        simp [List.mem_filter, h, hg]
      · rename_i hg
        split
        · rename_i hn
          simp [List.mem_filter, h, hg, hn]
        · rename_i hn
          simp [h, hg, hn]
    · rename_i h
      simp [h]

/-- C1.  For every table, criteria and row: the row is in the `get_data`
result iff it is in the table and satisfies every active predicate
(division equality, age-bucket equality, transporter equality, po_no
substring search, LR-status check), inactive predicates being
always-true. -/
theorem getData_mem_iff_matchesAll (df : List Row) (c : Criteria) (r : Row) :
    r ∈ get_data df c ↔ r ∈ df ∧ matchesAll c r = true := by
  unfold get_data
  split
  · rename_i h
    rw [List.isEmpty_iff] at h
    subst h
    simp
  · unfold applyFilters matchesAll
    rw [mem_lrStage, mem_poStage, mem_transporterStage, mem_ageStage, mem_divisionStage]
    simp only [Bool.and_eq_true]
    tauto

/-! ## Sentinel / inactive-criterion lemmas -/

theorem divisionStage_none (l : List Row) : divisionStage l none = l := rfl

theorem ageStage_none (l : List Row) : ageStage l none = l := rfl

theorem transporterStage_none (l : List Row) : transporterStage l none = l := rfl

theorem poStage_none (l : List Row) : poStage l none = l := rfl

theorem lrStage_none (l : List Row) : lrStage l none = l := rfl

theorem divisionStage_inactive {s : String} (h : s = "All" ∨ pyStrip s = "")
    (l : List Row) : divisionStage l (some s) = l := by
  have hneg : ¬(s ≠ "" ∧ s ≠ "All" ∧ pyStrip s ≠ "") := by
    rintro ⟨h1, h2, h3⟩
    rcases h with h | h
    · exact h2 h
    · exact h3 h
  simp [divisionStage, hneg]

theorem ageStage_inactive {s : String} (h : s = "All" ∨ pyStrip s = "")
    (l : List Row) : ageStage l (some s) = l := by
  have hneg : ¬(s ≠ "" ∧ s ≠ "All" ∧ pyStrip s ≠ "") := by
    rintro ⟨h1, h2, h3⟩
    rcases h with h | h
    · exact h2 h
    · exact h3 h
  simp [ageStage, hneg]

theorem transporterStage_inactive {s : String} (h : s = "All" ∨ pyStrip s = "")
    (l : List Row) : transporterStage l (some s) = l := by
  have hneg : ¬(s ≠ "" ∧ s ≠ "All" ∧ pyStrip s ≠ "") := by
    rintro ⟨h1, h2, h3⟩
    rcases h with h | h
    · exact h2 h
    · exact h3 h
  simp [transporterStage, hneg]

theorem lrStage_inactive {s : String} (h : s = "All" ∨ pyStrip s = "")
    (l : List Row) : lrStage l (some s) = l := by
  have hneg : ¬(s ≠ "" ∧ s ≠ "All" ∧ pyStrip s ≠ "") := by
    rintro ⟨h1, h2, h3⟩
    rcases h with h | h
    · exact h2 h
    · exact h3 h
  simp [lrStage, hneg]

theorem poStage_trim {s : String} (h : pyStrip s = "")
    (l : List Row) : poStage l (some s) = l := by
  have hneg : ¬(s ≠ "" ∧ pyStrip s ≠ "") := by
    rintro ⟨h1, h2⟩
    exact h2 h
  simp [poStage, hneg]

/-- C2 (amended).  For the division, age-bucket, transporter and
lr-status criteria, the value `"All"`, a whitespace-only/empty value, or
omission disables the predicate; for the po_no criterion only a
whitespace-only/empty value or omission disables it (po_no has no
`"All"` sentinel in the code). -/
theorem sentinel_inactive (df : List Row) (c : Criteria) (s : String) :
    ((s = "All" ∨ pyStrip s = "") →
      get_data df { c with division := some s } = get_data df { c with division := none } ∧
      get_data df { c with age_bucket := some s } = get_data df { c with age_bucket := none } ∧
      get_data df { c with transporter := some s } = get_data df { c with transporter := none } ∧
      get_data df { c with lr_details := some s } = get_data df { c with lr_details := none }) ∧
    (pyStrip s = "" →
      get_data df { c with po_no := some s } = get_data df { c with po_no := none }) := by
  obtain ⟨d, a, t, p, lr⟩ := c
  constructor
  · intro h
    refine ⟨?_, ?_, ?_, ?_⟩
    · simp only [get_data, applyFilters, divisionStage_inactive h, divisionStage_none]
    · simp only [get_data, applyFilters, ageStage_inactive h, ageStage_none]
    · simp only [get_data, applyFilters, transporterStage_inactive h, transporterStage_none]
    · simp only [get_data, applyFilters, lrStage_inactive h, lrStage_none]
  · intro h
    simp only [get_data, applyFilters, poStage_trim h, poStage_none]

/-- C2 counterexample: on a one-row table with Po No `PO-100`, passing
`po_no="All"` filters the row out (it is an active substring search for
`"all"`), so the result differs from the result with po_no absent —
refuting the claim that `"All"` disables the po_no criterion. -/
theorem sentinel_poNo_All_cex :
    get_data [rowA] { noCrit with po_no := some "All" } ≠ get_data [rowA] noCrit := by
  decide

/-- Witness for `sentinel_inactive` at concrete inputs. -/
theorem sentinel_inactive_witness :
    ((("All" : String) = "All" ∨ pyStrip ("All" : String) = "") ∧
      get_data [rowA] { noCrit with division := some "All" } =
        get_data [rowA] { noCrit with division := none }) ∧
    (pyStrip (" " : String) = "" ∧
      get_data [rowA] { noCrit with po_no := some " " } =
        get_data [rowA] { noCrit with po_no := none }) :=
  ⟨⟨Or.inl rfl, ((sentinel_inactive [rowA] noCrit "All").1 (Or.inl rfl)).1⟩,
   ⟨by decide, (sentinel_inactive [rowA] noCrit " ").2 (by decide)⟩⟩

/-! ## C8: the LR-status partition -/

theorem lrStage_generated (l : List Row) :
    lrStage l (some "LR Generated") =
      l.filter (fun r => pyStrip r.lrNo.toStr != "") := by
  simp only [lrStage]
  rw [if_pos (by decide)]
  split
  · rfl
  · rename_i h
    exact absurd trivial h

theorem lrStage_notGenerated (l : List Row) :
    lrStage l (some "LR Not Generated") =
      l.filter (fun r => pyStrip r.lrNo.toStr == "") := by
  simp only [lrStage]
  rw [if_pos (by decide)]
  split
  · rename_i h
    exact absurd h (by decide)
  · split
    · rfl
    · rename_i h
      exact absurd trivial h

/-- C8.  For every table and every fixed choice of the other criteria:
each row satisfies exactly one of the two LR-status predicates
(`generated`: stripped LR No. non-empty; `not_generated`: stripped LR No.
empty), and the `lr_status=generated` result together with the
`lr_status=not_generated` result is a permutation of (hence equal as a
multiset to) the unconstrained result, with no row in both. -/
theorem lr_status_partition (df : List Row) (d a t p : Option String) :
    (∀ r : Row,
      ((pyStrip r.lrNo.toStr != "") = true ∨ (pyStrip r.lrNo.toStr == "") = true) ∧
      ¬((pyStrip r.lrNo.toStr != "") = true ∧ (pyStrip r.lrNo.toStr == "") = true)) ∧
    (get_data df ⟨d, a, t, p, some "LR Generated"⟩ ++
      get_data df ⟨d, a, t, p, some "LR Not Generated"⟩).Perm
      (get_data df ⟨d, a, t, p, none⟩) ∧
    (∀ r : Row, ¬(r ∈ get_data df ⟨d, a, t, p, some "LR Generated"⟩ ∧
                  r ∈ get_data df ⟨d, a, t, p, some "LR Not Generated"⟩)) := by
  have hnot : (fun r : Row => pyStrip r.lrNo.toStr == "") =
      (fun r : Row => !(pyStrip r.lrNo.toStr != "")) := by
    funext r
    simp [bne]
  refine ⟨?_, ?_, ?_⟩
  · intro r
    by_cases h : pyStrip r.lrNo.toStr = "" <;> simp [h]
  · by_cases hdf : df.isEmpty
    · simp [get_data, hdf]
    · simp only [get_data, hdf, if_false, Bool.false_eq_true, applyFilters,
        lrStage_generated, lrStage_notGenerated, lrStage_none]
      rw [hnot]
      exact List.filter_append_perm _ _
  · rintro r ⟨hg, hn⟩
    by_cases hdf : df.isEmpty
    · rw [get_data, if_pos hdf] at hg
      exact absurd hg (List.not_mem_nil r)
    · simp only [get_data, hdf, if_false, Bool.false_eq_true, applyFilters,
        lrStage_generated, lrStage_notGenerated, List.mem_filter] at hg hn
      rcases hg with ⟨-, hg⟩
      rcases hn with ⟨-, hn⟩
      simp [bne] at hg
      simp at hn
      exact hg hn

/-! ## C9: idempotence of load-time normalization -/

theorem cleanValue_idem (v : Value) : cleanValue (cleanValue v) = cleanValue v := by
  cases v <;> rfl

theorem cleanRow_idem (r : Row) : cleanRow (cleanRow r) = cleanRow r := by
  cases r
  simp [cleanRow, cleanValue_idem]

/-- C9.  `clean_dataframe` is idempotent: re-normalizing an
already-normalized table changes no row. -/
theorem clean_dataframe_idem (df : List Row) :
    clean_dataframe (clean_dataframe df) = clean_dataframe df := by
  simp only [clean_dataframe, List.map_map]
  exact List.map_congr_left (fun r _ => cleanRow_idem r)

/-! ## C10: no request mutates the loaded table -/

theorem step_preserves_df (s : ServerState) (o : Op) : (step s o).2 = s := by
  cases o <;> rfl

/-- C10.  For every sequence of GetData / Export / GetVocabulary /
GetStatus requests, the loaded table is unchanged: the state after
running the sequence equals the initial state, so every later operation
observes the table produced by the loader. -/
theorem run_preserves_df (s : ServerState) (ops : List Op) :
    (run s ops).df = s.df := by
  induction ops generalizing s with
  | nil => rfl
  | cons o os ih =>
    rw [run, step_preserves_df]
    exact ih s

/-! ## C3: export on empty table vs. empty-after-filtering -/

/-- C3.  `export_data` rejects an empty source table with an explicit
error, while a non-empty table whose filtered result is empty yields a
valid spreadsheet with the full column header and zero data rows. -/
theorem export_empty_table_vs_empty_filter :
    (∀ c : Criteria, export_data [] c = .error "No data available to export") ∧
    (∀ (df : List Row) (c : Criteria), df ≠ [] → applyFilters df c = [] →
      export_data df c = .ok ⟨columns, []⟩) := by
  constructor
  · intro c
    rfl
  · intro df c hdf hfil
    rw [export_data, if_neg (fun h => hdf (List.isEmpty_iff.mp h)), hfil]
    rfl

/-- Witness for `export_empty_table_vs_empty_filter`: a one-row table
and a division criterion matching no row. -/
theorem export_empty_table_vs_empty_filter_witness :
    (([rowA] : List Row) ≠ [] ∧
      applyFilters [rowA] { noCrit with division := some "ZZZ" } = []) ∧
    export_data [] { noCrit with division := some "ZZZ" } =
      .error "No data available to export" ∧
    export_data [rowA] { noCrit with division := some "ZZZ" } = .ok ⟨columns, []⟩ :=
  ⟨⟨by decide, by decide⟩,
    export_empty_table_vs_empty_filter.1 { noCrit with division := some "ZZZ" },
    export_empty_table_vs_empty_filter.2 [rowA] { noCrit with division := some "ZZZ" }
      (by decide) (by decide)⟩

/-! ## C4: criteria values matching no vocabulary entry -/

theorem ageStage_nil (o : Option String) : ageStage [] o = [] := by
  cases o with
  | none => rfl
  | some s =>
    simp only [ageStage]
    split <;> rfl

theorem transporterStage_nil (o : Option String) : transporterStage [] o = [] := by
  cases o with
  | none => rfl
  | some s =>
    simp only [transporterStage]
    split <;> rfl

theorem poStage_nil (o : Option String) : poStage [] o = [] := by
  cases o with
  | none => rfl
  | some s =>
    simp only [poStage]
    split <;> rfl

theorem lrStage_nil (o : Option String) : lrStage [] o = [] := by
  cases o with
  | none => rfl
  | some s =>
    simp only [lrStage]
    split
    · split
      · rfl
      · split <;> rfl
    · rfl

theorem lrStage_unrecognized {s : String} (hs : s ≠ "") (hAll : s ≠ "All")
    (htrim : pyStrip s ≠ "") (hg : s ≠ "LR Generated")
    (hn : s ≠ "LR Not Generated") (l : List Row) : lrStage l (some s) = l := by
  simp only [lrStage, if_pos (And.intro hs (And.intro hAll htrim)), if_neg hg, if_neg hn]

/-- C4 (amended).  An active division, age-bucket, transporter or po_no
criterion whose predicate matches no row yields an empty result (the
other criteria arbitrary); while an active lr_status value other than the
two recognized labels is *ignored* — it acts as no constraint instead of
matching nothing. -/
theorem unmatched_criteria (df : List Row) (s : String) :
    (∀ a t p lr : Option String, s ≠ "All" → pyStrip s ≠ "" →
      (∀ r ∈ df, r.division.toStr ≠ s) →
      get_data df ⟨some s, a, t, p, lr⟩ = []) ∧
    (∀ d t p lr : Option String, s ≠ "All" → pyStrip s ≠ "" →
      (∀ r ∈ df, r.ageBucket.toStr ≠ s) →
      get_data df ⟨d, some s, t, p, lr⟩ = []) ∧
    (∀ d a p lr : Option String, s ≠ "All" → pyStrip s ≠ "" →
      (∀ r ∈ df, r.transporterName.toStr ≠ s) →
      get_data df ⟨d, a, some s, p, lr⟩ = []) ∧
    (∀ d a t lr : Option String, pyStrip s ≠ "" →
      (∀ r ∈ df, reSearchIC (pyStrip s) r.poNo.toStr = false) →
      get_data df ⟨d, a, t, some s, lr⟩ = []) ∧
    (∀ d a t p : Option String, s ≠ "All" → pyStrip s ≠ "" →
      s ≠ "LR Generated" → s ≠ "LR Not Generated" →
      get_data df ⟨d, a, t, p, some s⟩ = get_data df ⟨d, a, t, p, none⟩) := by
  have hstrip : pyStrip "" = "" := by decide
  have hs_of : ∀ s1 : String, pyStrip s1 ≠ "" → s1 ≠ "" := by
    intro s1 h1 h2
    rw [h2, hstrip] at h1
    exact h1 rfl
  refine ⟨?_, ?_, ?_, ?_, ?_⟩
  · intro a t p lr hAll htrim hnone
    rw [get_data]
    split
    · rfl
    · have hdiv : divisionStage df (some s) = [] := by
        simp only [divisionStage, if_pos (And.intro (hs_of s htrim) (And.intro hAll htrim))]
        rw [List.filter_eq_nil_iff]
        intro r hr
        simp [hnone r hr]
      simp only [applyFilters, hdiv, ageStage_nil, transporterStage_nil,
        poStage_nil, lrStage_nil]
  · intro d t p lr hAll htrim hnone
    rw [get_data]
    split
    · rfl
    · have hage : ageStage (divisionStage df d) (some s) = [] := by
        simp only [ageStage, if_pos (And.intro (hs_of s htrim) (And.intro hAll htrim))]
        rw [List.filter_eq_nil_iff]
        intro r hr
        have hrdf : r ∈ df := ((mem_divisionStage df d r).mp hr).1
        simp [hnone r hrdf]
      simp only [applyFilters, hage, transporterStage_nil, poStage_nil, lrStage_nil]
  · intro d a p lr hAll htrim hnone
    rw [get_data]
    split
    · rfl
    · have htr : transporterStage (ageStage (divisionStage df d) a) (some s) = [] := by
        simp only [transporterStage,
          if_pos (And.intro (hs_of s htrim) (And.intro hAll htrim))]
        rw [List.filter_eq_nil_iff]
        intro r hr
        have h1 : r ∈ divisionStage df d := ((mem_ageStage _ a r).mp hr).1
        have hrdf : r ∈ df := ((mem_divisionStage df d r).mp h1).1
        simp [hnone r hrdf]
      simp only [applyFilters, htr, poStage_nil, lrStage_nil]
  · intro d a t lr htrim hnomatch
    rw [get_data]
    split
    · rfl
    · have hpo : poStage (transporterStage (ageStage (divisionStage df d) a) t)
          (some s) = [] := by
        simp only [poStage, if_pos (And.intro (hs_of s htrim) htrim)]
        rw [List.filter_eq_nil_iff]
        intro r hr
        have h1 : r ∈ ageStage (divisionStage df d) a :=
          ((mem_transporterStage _ t r).mp hr).1
        have h2 : r ∈ divisionStage df d := ((mem_ageStage _ a r).mp h1).1
        have hrdf : r ∈ df := ((mem_divisionStage df d r).mp h2).1
        simp [hnomatch r hrdf]
      simp only [applyFilters, hpo, lrStage_nil]
  · intro d a t p hAll htrim hg hn
    simp only [get_data, applyFilters,
      lrStage_unrecognized (hs_of s htrim) hAll htrim hg hn, lrStage_none]

/-- C4 counterexample: on a one-row table, the unrecognized lr_status
value `"No Such Status"` produces the whole table, not the empty result
the claim requires. -/
theorem unrecognized_lr_nonempty_cex :
    get_data [rowA] { noCrit with lr_details := some "No Such Status" } = [rowA] ∧
    ([rowA] : List Row) ≠ [] := by
  constructor
  · decide
  · decide

/-- Witness for `unmatched_criteria`: each of the five conjuncts applied
at a concrete one-row table with a value matching no row (or, for
lr_status, an unrecognized label). -/
theorem unmatched_criteria_witness :
    (("ZZZ" : String) ≠ "All" ∧ pyStrip "ZZZ" ≠ "" ∧
      (∀ r ∈ [rowA], r.division.toStr ≠ "ZZZ") ∧
      get_data [rowA] ⟨some "ZZZ", none, none, none, none⟩ = []) ∧
    ((∀ r ∈ [rowA], r.ageBucket.toStr ≠ "ZZZ") ∧
      get_data [rowA] ⟨none, some "ZZZ", none, none, none⟩ = []) ∧
    ((∀ r ∈ [rowA], r.transporterName.toStr ≠ "ZZZ") ∧
      get_data [rowA] ⟨none, none, some "ZZZ", none, none⟩ = []) ∧
    (pyStrip "zq" ≠ "" ∧
      (∀ r ∈ [rowA], reSearchIC (pyStrip "zq") r.poNo.toStr = false) ∧
      get_data [rowA] ⟨none, none, none, some "zq", none⟩ = []) ∧
    (("Bogus" : String) ≠ "All" ∧ pyStrip "Bogus" ≠ "" ∧
      ("Bogus" : String) ≠ "LR Generated" ∧ ("Bogus" : String) ≠ "LR Not Generated" ∧
      get_data [rowA] ⟨none, none, none, none, some "Bogus"⟩ =
        get_data [rowA] ⟨none, none, none, none, none⟩) :=
  ⟨⟨by decide, by decide, by decide,
    (unmatched_criteria [rowA] "ZZZ").1 none none none none
      (by decide) (by decide) (by decide)⟩,
   ⟨by decide,
    (unmatched_criteria [rowA] "ZZZ").2.1 none none none none
      (by decide) (by decide) (by decide)⟩,
   ⟨by decide,
    (unmatched_criteria [rowA] "ZZZ").2.2.1 none none none none
      (by decide) (by decide) (by decide)⟩,
   ⟨by decide, by decide,
    (unmatched_criteria [rowA] "zq").2.2.2.1 none none none none
      (by decide) (by decide)⟩,
   ⟨by decide, by decide, by decide, by decide,
    (unmatched_criteria [rowA] "Bogus").2.2.2.2 none none none none
      (by decide) (by decide) (by decide) (by decide)⟩⟩

/-! ## C7: vocabulary on the empty table -/

/-- C7 counterexample: for the empty table `get_filters` does not return
an (empty) lr_statuses list at all — the `lr_details` key is absent from
the empty-table response (src/app.py lines 51-56), contradicting "all
four lists ... each as an empty list". -/
theorem getFilters_empty_no_lr_cex :
    (get_filters []).lr_details ≠ some ([] : List String) := by
  decide

/-- C7 (amended).  For the empty table `get_filters` succeeds and returns
divisions, age_buckets and transporters as empty lists; the lr_statuses
list is omitted from the response (no `lr_details` key). -/
theorem getFilters_empty :
    get_filters [] = (⟨[], [], [], none⟩ : Vocab) := rfl

/-! ## C5: the po_no predicate vs. literal substring containment -/

theorem matchHere_map_some : ∀ (p m : List Char),
    matchHere (p.map some) m = prefHere p m
  | [], [] => rfl
  | [], _ :: _ => rfl
  | _ :: _, [] => rfl
  | c :: p, d :: m => by
    simp only [List.map_cons, matchHere, prefHere, tokMatch]
    rw [matchHere_map_some p m]

theorem searchToks_map_some (p : List Char) : ∀ (m : List Char),
    searchToks (p.map some) m = hasSub p m
  | [] => by
    simp only [searchToks, hasSub]
    exact matchHere_map_some p []
  | d :: m => by
    simp only [searchToks, hasSub]
    rw [matchHere_map_some, searchToks_map_some p m]

theorem patToks_noDot (p : List Char) (h : ∀ c ∈ p, c ≠ '.') :
    patToks p = (p.map Char.toLower).map some := by
  rw [patToks, List.map_map]
  apply List.map_congr_left
  intro c hc
  simp [Function.comp, h c hc]

/-- For a pattern with no regex metacharacter, the code's
case-insensitive regex search coincides with case-insensitive literal
substring containment. -/
theorem reSearch_eq_containsCI {pat : String} (h : noMeta pat = true)
    (s : String) : reSearchIC pat s = containsCI pat s := by
  have hdot : ∀ c ∈ pat.data, c ≠ '.' := by
    intro c hc heq
    have hall := List.all_eq_true.mp h c hc
    subst heq
    exact absurd hall (by decide)
  rw [reSearchIC, containsCI, patToks_noDot pat.data hdot, searchToks_map_some]

/-- C5 (amended).  For every row and every po_no criterion that is
non-empty after stripping and contains no regex metacharacter, the row
passes the po_no predicate iff the stripped, case-folded criterion
occurs in the case-folded Po No string as a literal substring (for a
criterion containing a metacharacter the predicate is a regex search
instead; see the counterexample). -/
theorem poNoPred_substring (s : String) (r : Row) (h1 : pyStrip s ≠ "")
    (h2 : noMeta (pyStrip s) = true) :
    (poNoPred (some s) r = true ↔ containsCI (pyStrip s) r.poNo.toStr = true) := by
  have hs : s ≠ "" := by
    intro h
    apply h1
    rw [h]
    decide
  simp only [poNoPred, if_pos (And.intro hs h1)]
  rw [reSearch_eq_containsCI h2]

/-- C5 counterexample: the pattern `"p.1"` (regex `.` wildcard) passes
the code's po_no predicate against Po No `"PX1"`, although `"p.1"` is
not a literal substring of the case-folded `"PX1"` — so the predicate is
not literal substring containment for every criterion. -/
theorem poNoPred_regex_cex :
    poNoPred (some "p.1") rowB = true ∧
    containsCI "p.1" rowB.poNo.toStr = false := by
  constructor
  · decide
  · decide

/-- Witness for `poNoPred_substring`: the spec's example pattern
`"po-1"` against the row with Po No `"PO-100"`, which the predicate
accepts. -/
theorem poNoPred_substring_witness :
    (pyStrip "po-1" ≠ "" ∧ noMeta (pyStrip "po-1") = true) ∧
    (poNoPred (some "po-1") rowA = true ↔
      containsCI (pyStrip "po-1") rowA.poNo.toStr = true) ∧
    poNoPred (some "po-1") rowA = true :=
  ⟨⟨by decide, by decide⟩,
   poNoPred_substring "po-1" rowA (by decide) (by decide),
   by decide⟩

/-! ## C6: the vocabulary lists -/

/-- Is the cell a string value? -/
def isStr : Value → Bool
  | .vstr _ => true
  | _ => false

theorem isStr_exists {v : Value} (h : isStr v = true) : ∃ s, v = Value.vstr s := by
  cases v with
  | vstr s => exact ⟨s, rfl⟩
  | vnum n => simp [isStr] at h
  | blank => simp [isStr] at h

theorem mem_uniqueFirstAux : ∀ (l seen : List Value) (v : Value),
    v ∈ uniqueFirstAux seen l ↔ (v ∈ l ∧ v ∉ seen) := by
  intro l
  induction l with
  | nil => simp [uniqueFirstAux]
  | cons a l ih =>
    intro seen v
    simp only [uniqueFirstAux]
    split
    · rename_i h
      rw [ih, List.mem_cons]
      by_cases hv : v = a
      · subst hv
        simp [h]
      · simp [hv]
    · rename_i h
      rw [List.mem_cons, ih, List.mem_cons, List.mem_cons]
      by_cases hv : v = a
      · subst hv
        simp [h]
      · simp [hv]

theorem nodup_uniqueFirstAux : ∀ (l seen : List Value),
    (uniqueFirstAux seen l).Nodup := by
  intro l
  induction l with
  | nil => simp [uniqueFirstAux]
  | cons a l ih =>
    intro seen
    simp only [uniqueFirstAux]
    split
    · exact ih seen
    · rw [List.nodup_cons]
      refine ⟨?_, ih (a :: seen)⟩
      rw [mem_uniqueFirstAux]
      rintro ⟨-, hmem⟩
      exact hmem (List.mem_cons_self a seen)

theorem mem_uniqueFirst (l : List Value) (v : Value) :
    v ∈ uniqueFirst l ↔ v ∈ l := by
  rw [uniqueFirst, mem_uniqueFirstAux]
  simp

theorem nodup_uniqueFirst (l : List Value) : (uniqueFirst l).Nodup :=
  nodup_uniqueFirstAux l []

/-- The shared dropna-unique-stringify-filter-sort pipeline of
`get_filters`, on a column whose cells are all strings: the output is
sorted, duplicate-free, and contains exactly the present column values
that pass the comprehension's filter. -/
theorem vocab_pipeline (col : List Value) (h : ∀ v ∈ col, isStr v = true)
    (pred : String → Bool) :
    List.Sorted (fun a b : String => a ≤ b)
        (sortStr (((uniqueFirst (dropna col)).map Value.toStr).filter pred)) ∧
      (sortStr (((uniqueFirst (dropna col)).map Value.toStr).filter pred)).Nodup ∧
      ∀ x : String,
        x ∈ sortStr (((uniqueFirst (dropna col)).map Value.toStr).filter pred) ↔
          (Value.vstr x ∈ col ∧ pred x = true) := by
  refine ⟨List.sorted_insertionSort _ _, ?_, ?_⟩
  · have hn : (((uniqueFirst (dropna col)).map Value.toStr).filter pred).Nodup := by
      apply List.Nodup.filter
      apply List.Nodup.map_on ?_ (nodup_uniqueFirst _)
      intro x hx y hy hxy
      have hx' : x ∈ col :=
        (List.mem_filter.mp ((mem_uniqueFirst _ _).mp hx)).1
      have hy' : y ∈ col :=
        (List.mem_filter.mp ((mem_uniqueFirst _ _).mp hy)).1
      obtain ⟨a, rfl⟩ := isStr_exists (h x hx')
      obtain ⟨b, rfl⟩ := isStr_exists (h y hy')
      simpa [Value.toStr] using hxy
    exact (List.perm_insertionSort _ _).symm.nodup hn
  · intro x
    rw [sortStr, List.mem_insertionSort, List.mem_filter, List.mem_map]
    constructor
    · rintro ⟨⟨v, hv, hvx⟩, hpred⟩
      have hvcol : v ∈ col :=
        (List.mem_filter.mp ((mem_uniqueFirst _ _).mp hv)).1
      obtain ⟨a, rfl⟩ := isStr_exists (h v hvcol)
      have : a = x := hvx
      subst this
      exact ⟨hvcol, hpred⟩
    · rintro ⟨hcol, hpred⟩
      refine ⟨⟨Value.vstr x, ?_, rfl⟩, hpred⟩
      rw [mem_uniqueFirst, dropna, List.mem_filter]
      exact ⟨hcol, rfl⟩

theorem getFilters_divisions : ∀ (df : List Row), df ≠ [] →
    (get_filters df).divisions = vocabList (df.map (fun r => r.division))
  | [], h => absurd rfl h
  | _ :: _, _ => rfl

theorem getFilters_transporters : ∀ (df : List Row), df ≠ [] →
    (get_filters df).transporters =
      "" :: vocabListNoNan (df.map (fun r => r.transporterName))
  | [], h => absurd rfl h
  | r :: t, _ => by
    show (if (vocabListNoNan ((r :: t).map (fun x => x.transporterName))).isEmpty
        then [""]
        else [""] ++ vocabListNoNan ((r :: t).map (fun x => x.transporterName))) = _
    split
    · rename_i hemp
      rw [List.isEmpty_iff] at hemp
      rw [hemp]
    · rfl

/-- C6 (amended).  For every non-empty table whose Division and
Transporter Name cells are strings: the returned divisions list is
deduplicated, blank-filtered and sorted, containing exactly the divisions
present; the returned transporters list is a single empty string followed
by the deduplicated, blank- and `"nan"`-filtered, sorted transporter
names (the code prepends `""` to the transporters it returns, so that
list is not entirely blank-filtered). -/
theorem getFilters_sorted_dedup (df : List Row) (hne : df ≠ [])
    (hstr : ∀ r ∈ df, isStr r.division = true ∧ isStr r.transporterName = true) :
    (List.Sorted (fun a b : String => a ≤ b) (get_filters df).divisions ∧
      (get_filters df).divisions.Nodup ∧
      (∀ x : String, x ∈ (get_filters df).divisions ↔
        (Value.vstr x ∈ df.map (fun r => r.division) ∧ pyStrip x ≠ ""))) ∧
    (∃ ts : List String, (get_filters df).transporters = "" :: ts ∧
      List.Sorted (fun a b : String => a ≤ b) ts ∧ ts.Nodup ∧
      (∀ x : String, x ∈ ts ↔ (Value.vstr x ∈ df.map (fun r => r.transporterName) ∧
        (pyStrip x ≠ "" ∧ x ≠ "nan")))) := by
  have hd : ∀ v ∈ df.map (fun r => r.division), isStr v = true := by
    intro v hv
    rw [List.mem_map] at hv
    obtain ⟨r, hr, rfl⟩ := hv
    exact (hstr r hr).1
  have ht : ∀ v ∈ df.map (fun r => r.transporterName), isStr v = true := by
    intro v hv
    rw [List.mem_map] at hv
    obtain ⟨r, hr, rfl⟩ := hv
    exact (hstr r hr).2
  constructor
  · rw [getFilters_divisions df hne, vocabList]
    obtain ⟨h1, h2, h3⟩ := vocab_pipeline (df.map (fun r => r.division)) hd
      (fun s => decide (pyStrip s ≠ ""))
    refine ⟨h1, h2, ?_⟩
    intro x
    rw [h3 x]
    simp
  · refine ⟨vocabListNoNan (df.map (fun r => r.transporterName)),
      getFilters_transporters df hne, ?_⟩
    rw [vocabListNoNan]
    obtain ⟨h1, h2, h3⟩ := vocab_pipeline (df.map (fun r => r.transporterName)) ht
      (fun s => decide (pyStrip s ≠ "" ∧ s ≠ "nan"))
    refine ⟨h1, h2, ?_⟩
    intro x
    rw [h3 x]
    simp

/-- C6 counterexample: on a one-row table the returned transporters list
is `["", "T1"]` — it contains the empty string (prepended at src/app.py
line 71), so the transporters list handed back by the vocabulary
operation is not blank/empty-string-filtered. -/
theorem getFilters_transporters_blank_cex :
    (get_filters [rowA]).transporters = ["", "T1"] ∧
    "" ∈ (get_filters [rowA]).transporters ∧ pyStrip "" = "" := by
  refine ⟨?_, ?_, ?_⟩
  · decide
  · decide
  · decide

/-- Witness for `getFilters_sorted_dedup` on a concrete two-row table. -/
theorem getFilters_sorted_dedup_witness :
    (([rowA, rowB] : List Row) ≠ [] ∧
      ∀ r ∈ ([rowA, rowB] : List Row),
        isStr r.division = true ∧ isStr r.transporterName = true) ∧
    ((List.Sorted (fun a b : String => a ≤ b) (get_filters [rowA, rowB]).divisions ∧
      (get_filters [rowA, rowB]).divisions.Nodup ∧
      (∀ x : String, x ∈ (get_filters [rowA, rowB]).divisions ↔
        (Value.vstr x ∈ ([rowA, rowB] : List Row).map (fun r => r.division) ∧
          pyStrip x ≠ ""))) ∧
    (∃ ts : List String, (get_filters [rowA, rowB]).transporters = "" :: ts ∧
      List.Sorted (fun a b : String => a ≤ b) ts ∧ ts.Nodup ∧
      (∀ x : String, x ∈ ts ↔
        (Value.vstr x ∈ ([rowA, rowB] : List Row).map (fun r => r.transporterName) ∧
          (pyStrip x ≠ "" ∧ x ≠ "nan"))))) :=
  ⟨⟨by decide, by decide⟩,
    getFilters_sorted_dedup [rowA, rowB] (by decide) (by decide)⟩
